import Mathlib

/-!
Verification development for the rootme-stats client library
(`librootme`): a shallow embedding, in Lean 4, of the scalar coercion
rules (`utils.py`, `constants.py`), the domain record decoding layer
(`datamodel.py`), the page-envelope / rel-link / cursor model
(`paged.py`) and the rel-link resolver and traversal driver (`api.py`),
together with theorems settling the behavioural claims about them.

Conventions of the embedding: Python functions that may raise become
`Except String` computations; Python `dict`s whose iteration order
matters become association lists; Python string scalars are Lean
`String`s.  Unicode-dependent Python behaviour (full case folding,
UTF-8 percent-decoding, the complete HTML entity table, the full
`fromisoformat` grammar) is modelled on the ASCII fragment actually
exercised by the wire protocol; each such definition carries a doc
comment saying what is modelled.
-/

deriving instance DecidableEq for Except

namespace RootMe

/-- Model of Python `str.lower` on a single character, restricted to
ASCII case mapping (all case-carrying characters appearing in the
decoding tables of `constants.py` are ASCII). -/
def pyLowerChar (c : Char) : Char :=
  match c with
  | 'A' => 'a' | 'B' => 'b' | 'C' => 'c' | 'D' => 'd' | 'E' => 'e' | 'F' => 'f'
  | 'G' => 'g' | 'H' => 'h' | 'I' => 'i' | 'J' => 'j' | 'K' => 'k' | 'L' => 'l'
  | 'M' => 'm' | 'N' => 'n' | 'O' => 'o' | 'P' => 'p' | 'Q' => 'q' | 'R' => 'r'
  | 'S' => 's' | 'T' => 't' | 'U' => 'u' | 'V' => 'v' | 'W' => 'w' | 'X' => 'x'
  | 'Y' => 'y' | 'Z' => 'z'
  | c => c

/-- Model of Python `str.lower` (ASCII fragment), as used by
`Difficulty.from_str` in `constants.py`. -/
def pyLower (s : String) : String :=
  ⟨s.data.map pyLowerChar⟩

/-- Tag-removal core of `strip_tags` (`utils.py`): characters between
`<` and `>` are consumed by the `_MLStripper` HTML parser and never
reach `handle_data`; an unterminated tag is buffered and never emitted. -/
def stripTagsCore : Bool → List Char → List Char
  | _, [] => []
  | false, '<' :: r => stripTagsCore true r
  | false, c :: r => c :: stripTagsCore false r
  | true, '>' :: r => stripTagsCore false r
  | true, _ :: r => stripTagsCore true r

/-- Character-reference conversion performed by `html.unescape` and by
`HTMLParser` (with its default `convert_charrefs=True`) on data
segments, restricted to the entities occurring on the wire
(`&amp;` `&lt;` `&gt;` `&quot;` `&#39;`). -/
def unescapeCore : List Char → List Char
  | '&' :: 'a' :: 'm' :: 'p' :: ';' :: r => '&' :: unescapeCore r
  | '&' :: 'l' :: 't' :: ';' :: r => '<' :: unescapeCore r
  | '&' :: 'g' :: 't' :: ';' :: r => '>' :: unescapeCore r
  | '&' :: 'q' :: 'u' :: 'o' :: 't' :: ';' :: r => '"' :: unescapeCore r
  | '&' :: '#' :: '3' :: '9' :: ';' :: r => Char.ofNat 39 :: unescapeCore r
  | c :: r => c :: unescapeCore r
  | [] => []

/-- Model of `html.unescape`, used for free-text fields (titles,
subtitles) in `datamodel.py`. -/
def unescape (s : String) : String :=
  ⟨unescapeCore s.data⟩

/-- Model of `strip_tags` (`utils.py`): the `_MLStripper` parser drops
markup and, through `convert_charrefs=True`, converts character
references in the remaining data. -/
def strip_tags (s : String) : String :=
  ⟨unescapeCore (stripTagsCore false s.data)⟩

/-- Model of `parse_bool` (`utils.py`, line 31): `value == "true"`.
Note it is total and never raises. -/
def parse_bool (value : String) : Bool :=
  value == "true"

/-- Validity of the digit tail of a Python `int()` literal: after the
first digit, an underscore may appear only when followed by a digit
(Python allows single underscores strictly between digits). -/
def pyIntDigitTail : List Char → Bool
  | [] => true
  | '_' :: c :: r => c.isDigit && pyIntDigitTail r
  | ['_'] => false
  | c :: r => c.isDigit && pyIntDigitTail r

/-- Base-10 value of a digit list, skipping group underscores. -/
def pyIntValue (l : List Char) : Nat :=
  l.foldl (fun acc c => if c = '_' then acc else acc * 10 + (c.toNat - 48)) 0

/-- Model of Python `int(str)` (as used by `parse_int` in `utils.py`
and by `int(...)` calls in `datamodel.py`): optional surrounding
whitespace, optional sign, then base-10 digits with optional single
group underscores; anything else raises `ValueError`. -/
def pyInt (s : String) : Except String Int :=
  let l := ((s.data.dropWhile Char.isWhitespace).reverse.dropWhile Char.isWhitespace).reverse
  let signed : Int × List Char :=
    match l with
    | '+' :: r => (1, r)
    | '-' :: r => (-1, r)
    | r => (1, r)
  match signed.2 with
  | [] => .error "invalid literal for int() with base 10"
  | c :: r =>
    if c.isDigit && pyIntDigitTail r then
      .ok (signed.1 * (pyIntValue (c :: r) : Int))
    else
      .error "invalid literal for int() with base 10"

/-- `parse_int` (`utils.py`): `int(value)`. -/
def parse_int (value : String) : Except String Int :=
  pyInt value

/-- Timestamp produced by `datetime.fromisoformat` (naive, second
precision — the precision the wire emits). -/
structure PyDateTime where
  year : Nat
  month : Nat
  day : Nat
  hour : Nat
  minute : Nat
  second : Nat
deriving DecidableEq, Repr

def isLeapYear (y : Nat) : Bool :=
  (y % 4 == 0 && y % 100 != 0) || y % 400 == 0

def daysInMonth (y m : Nat) : Nat :=
  if m = 2 then (if isLeapYear y then 29 else 28)
  else if m = 4 ∨ m = 6 ∨ m = 9 ∨ m = 11 then 30
  else 31

/-- Two-digit field of a date string. -/
def twoDigits (a b : Char) : Option Nat :=
  if a.isDigit && b.isDigit then some ((a.toNat - 48) * 10 + (b.toNat - 48)) else none

/-- Four-digit field of a date string. -/
def fourDigits (a b c d : Char) : Option Nat :=
  if a.isDigit && b.isDigit && c.isDigit && d.isDigit then
    some ((((a.toNat - 48) * 10 + (b.toNat - 48)) * 10 + (c.toNat - 48)) * 10 + (d.toNat - 48))
  else none

def mkPyDateTime (y mo d h mi se : Nat) : Except String PyDateTime :=
  if 1 ≤ y ∧ y ≤ 9999 ∧ 1 ≤ mo ∧ mo ≤ 12 ∧ 1 ≤ d ∧ d ≤ daysInMonth y mo
      ∧ h ≤ 23 ∧ mi ≤ 59 ∧ se ≤ 59 then
    .ok ⟨y, mo, d, h, mi, se⟩
  else
    .error "Invalid isoformat string"

/-- Model of `parse_date` (`utils.py`): `datetime.fromisoformat`,
restricted to the wire formats `YYYY-MM-DD` and
`YYYY-MM-DD[T ]HH:MM:SS` with calendar validation (the full
`fromisoformat` grammar also admits fractional seconds and offsets,
which the wire never carries). -/
def parse_date (s : String) : Except String PyDateTime :=
  match s.data with
  | [y1, y2, y3, y4, '-', m1, m2, '-', d1, d2] =>
    match fourDigits y1 y2 y3 y4, twoDigits m1 m2, twoDigits d1 d2 with
    | some y, some mo, some d => mkPyDateTime y mo d 0 0 0
    | _, _, _ => .error "Invalid isoformat string"
  | [y1, y2, y3, y4, '-', m1, m2, '-', d1, d2, sep, h1, h2, ':', n1, n2, ':', s1, s2] =>
    if sep = 'T' ∨ sep = ' ' then
      match fourDigits y1 y2 y3 y4, twoDigits m1 m2, twoDigits d1 d2,
            twoDigits h1 h2, twoDigits n1 n2, twoDigits s1 s2 with
      | some y, some mo, some d, some h, some mi, some se => mkPyDateTime y mo d h mi se
      | _, _, _, _, _, _ => .error "Invalid isoformat string"
    else .error "Invalid isoformat string"
  | _ => .error "Invalid isoformat string"

abbrev Url := String

/-- Result of `urllib.parse.urlsplit`, as used by `split_url`
(`utils.py`). -/
structure SplitResult where
  scheme : String
  netloc : String
  path : String
  query : String
  fragment : String
deriving DecidableEq, Repr

/-- Characters admitted in a URL scheme by `urllib.parse`. -/
def schemeChar (c : Char) : Bool :=
  c.isAlphanum || c = '+' || c = '-' || c = '.'

/-- Split a character list at the first occurrence of `c`, dropping the
separator; `none` when `c` does not occur. -/
def splitAtFirst (c : Char) : List Char → Option (List Char × List Char)
  | [] => none
  | x :: r =>
    if x = c then some ([], r)
    else (splitAtFirst c r).map (fun p => (x :: p.1, p.2))

/-- `_splitnetloc`: the authority runs from after `//` to the first of
`/`, `?`, `#`. -/
def splitNetloc (l : List Char) : List Char × List Char :=
  let netloc := l.takeWhile (fun c => c ≠ '/' ∧ c ≠ '?' ∧ c ≠ '#')
  (netloc, l.drop netloc.length)

/-- Model of `split_url` (`utils.py`), i.e. `urllib.parse.urlsplit`:
strip unsafe bytes (tab, CR, LF); a scheme is an ASCII letter followed
by scheme characters up to the first `:` and is lowercased; an
authority follows `//` up to the first `/`, `?` or `#`; the fragment is
everything after the first remaining `#`; the query everything after
the first remaining `?`.  The IPv6 bracket-balance check of `urlsplit`
(which raises on malformed bracketed hosts) is outside the modelled
fragment. -/
def split_url (value : Url) : SplitResult :=
  let l0 := value.data.filter (fun c => c ≠ '\t' ∧ c ≠ '\r' ∧ c ≠ '\n')
  let schemeRest : List Char × List Char :=
    match splitAtFirst ':' l0 with
    | some (before, after) =>
      match before with
      | c :: cs =>
        if c.isAlpha && (c :: cs).all schemeChar then ((c :: cs).map pyLowerChar, after)
        else ([], l0)
      | [] => ([], l0)
    | none => ([], l0)
  let netlocRest : List Char × List Char :=
    match schemeRest.2 with
    | '/' :: '/' :: rest => splitNetloc rest
    | l => ([], l)
  let pathqFrag : List Char × List Char :=
    match splitAtFirst '#' netlocRest.2 with
    | some (b, a) => (b, a)
    | none => (netlocRest.2, [])
  let pathQuery : List Char × List Char :=
    match splitAtFirst '?' pathqFrag.1 with
    | some (b, a) => (b, a)
    | none => (pathqFrag.1, [])
  ⟨⟨schemeRest.1⟩, ⟨netlocRest.1⟩, ⟨pathQuery.1⟩, ⟨pathQuery.2⟩, ⟨pathqFrag.2⟩⟩

def hexVal (c : Char) : Option Nat :=
  if '0' ≤ c ∧ c ≤ '9' then some (c.toNat - 48)
  else if 'a' ≤ c ∧ c ≤ 'f' then some (c.toNat - 87)
  else if 'A' ≤ c ∧ c ≤ 'F' then some (c.toNat - 55)
  else none

/-- Percent-decoding core of `urllib.parse.unquote`, on the single-byte
(ASCII) escapes the wire uses; an invalid escape is kept literally, as
in Python. -/
def pctDecode : List Char → List Char
  | '%' :: h1 :: h2 :: r =>
    (match hexVal h1, hexVal h2 with
     | some a, some b => Char.ofNat (16 * a + b) :: pctDecode r
     | _, _ => '%' :: pctDecode (h1 :: h2 :: r))
  | c :: r => c :: pctDecode r
  | [] => []

/-- Model of `urllib.parse.unquote_plus`: `+` becomes a space, then
percent escapes are decoded. -/
def unquote_plus (s : String) : String :=
  ⟨pctDecode (s.data.map (fun c => if c = '+' then ' ' else c))⟩

/-- Python `str.split(sep)` on a single separator character. -/
def splitOnChar (c : Char) : List Char → List (List Char)
  | [] => [[]]
  | x :: r =>
    if x = c then [] :: splitOnChar c r
    else
      match splitOnChar c r with
      | h :: t => (x :: h) :: t
      | [] => [[x]]

/-- Model of `urllib.parse.parse_qsl` with its defaults
(`keep_blank_values=False`, `strict_parsing=False`, separator `&`):
each `&`-separated field is kept iff it is nonempty, contains `=`, and
its value part is nonempty; name and value are `unquote_plus`-decoded,
in source order. -/
def parse_qsl (qs : String) : List (String × String) :=
  (splitOnChar '&' qs.data).filterMap fun nv =>
    if nv = [] then none
    else
      match splitAtFirst '=' nv with
      | none => none
      | some (n, v) =>
        if v = [] then none else some (unquote_plus ⟨n⟩, unquote_plus ⟨v⟩)

/-- Append a parsed query pair to the grouped mapping, preserving first
occurrence order of keys, as Python `parse_qs` does. -/
def addQsPair (acc : List (String × List String)) (k v : String) : List (String × List String) :=
  match acc with
  | [] => [(k, [v])]
  | (k0, vs) :: t => if k0 = k then (k0, vs ++ [v]) :: t else (k0, vs) :: addQsPair t k v

/-- Model of `urllib.parse.parse_qs`: `parse_qsl` grouped by key. -/
def parse_qs (qs : String) : List (String × List String) :=
  (parse_qsl qs).foldl (fun acc kv => addQsPair acc kv.1 kv.2) []

/-- `parse_url_qsl` (`utils.py`): query pairs of a URL. -/
def parse_url_qsl (value : Url) : List (String × String) :=
  parse_qsl (split_url value).query

/-- `parse_url_qs` (`utils.py`): grouped query mapping of a URL. -/
def parse_url_qs (value : Url) : List (String × List String) :=
  parse_qs (split_url value).query

/-- Python `str.rstrip(c)`. -/
def pyRstrip (s : String) (c : Char) : String :=
  ⟨(s.data.reverse.dropWhile (· = c)).reverse⟩

/-- Python `str.lstrip(c)`. -/
def pyLstrip (s : String) (c : Char) : String :=
  ⟨s.data.dropWhile (· = c)⟩

example : split_url "https://api.www.root-me.org/challenges?debut_challenges=20" =
    ⟨"https", "api.www.root-me.org", "/challenges", "debut_challenges=20", ""⟩ := by decide
example : split_url "HTTPS://api.www.root-me.org/x" =
    ⟨"https", "api.www.root-me.org", "/x", "", ""⟩ := by decide
example : parse_url_qsl "https://api.example/ch?a=1&debut_challenges=20&b=" =
    [("a", "1"), ("debut_challenges", "20")] := by decide
example : parse_qs "a=1&b=2&a=3" = [("a", ["1", "3"]), ("b", ["2"])] := by decide
example : unquote_plus "a+b%2Fc" = "a b/c" := by decide

/-- `Language` (`constants.py`): supported locale codes. -/
inductive Language
  | FR | EN | DE | ES | RU | ZH
deriving DecidableEq, Repr

def Language.value : Language → String
  | .FR => "fr"
  | .EN => "en"
  | .DE => "de"
  | .ES => "es"
  | .RU => "ru"
  | .ZH => "zh"

def Language.members : List Language :=
  [.FR, .EN, .DE, .ES, .RU, .ZH]

/-- `Language(code)`: `StrEnum` value lookup, raising on unknown codes. -/
def Language.ofCode (s : String) : Except String Language :=
  match Language.members.find? (fun l => l.value == s) with
  | some l => .ok l
  | none => .error s

/-- `AccountType` (`constants.py`). -/
inductive AccountType
  | ADMIN | PREMIUM | REDACTOR | VISITOR | NEW | UNCONFIRMED
  | CHEATER | LEAKER | TRASH | BANNED
deriving DecidableEq, Repr

def AccountType.value : AccountType → String
  | .ADMIN => "0minirezo"
  | .PREMIUM => "5pre"
  | .REDACTOR => "1comite"
  | .VISITOR => "6forum"
  | .NEW => "nouveau"
  | .UNCONFIRMED => "aconfirmer"
  | .CHEATER => "5cheater"
  | .LEAKER => "5leaker"
  | .TRASH => "5poubelle"
  | .BANNED => "5banned"

def AccountType.members : List AccountType :=
  [.ADMIN, .PREMIUM, .REDACTOR, .VISITOR, .NEW, .UNCONFIRMED, .CHEATER, .LEAKER, .TRASH, .BANNED]

/-- `AccountType(code)`: `StrEnum` value lookup, raising on unknown codes. -/
def AccountType.ofCode (s : String) : Except String AccountType :=
  match AccountType.members.find? (fun a => a.value == s) with
  | some a => .ok a
  | none => .error s

/-- `Rank` (`constants.py`). -/
inductive Rank
  | VISITOR | CURIOUS | TRAINEE | INSIDER | ENTHUSIAST | HACKER | ELITE | LEGEND
deriving DecidableEq, Repr

def Rank.value : Rank → String
  | .VISITOR => "visitor"
  | .CURIOUS => "curious"
  | .TRAINEE => "trainee"
  | .INSIDER => "insider"
  | .ENTHUSIAST => "enthusiast"
  | .HACKER => "hacker"
  | .ELITE => "elite"
  | .LEGEND => "legend"

def Rank.members : List Rank :=
  [.VISITOR, .CURIOUS, .TRAINEE, .INSIDER, .ENTHUSIAST, .HACKER, .ELITE, .LEGEND]

/-- `Rank(code)`: `StrEnum` value lookup, raising on unknown codes. -/
def Rank.ofCode (s : String) : Except String Rank :=
  match Rank.members.find? (fun r => r.value == s) with
  | some r => .ok r
  | none => .error s

/-- The 66 member values of the `CategoryLocalized` `IntEnum`
(`constants.py`), in declaration order. -/
def categoryLocalizedValues : List Int :=
  [189, 203, 69, 18, 208, 17, 70, 182, 67, 16, 68,
   191, 204, 158, 160, 209, 159, 157, 183, 156, 155, 154,
   217, 218, 228, 229, 230, 231, 235, 232, 236, 234, 233,
   251, 252, 253, 254, 255, 256, 257, 258, 259, 260, 261,
   327, 329, 323, 325, 330, 324, 322, 326, 321, 320, 319,
   371, 376, 359, 361, 377, 360, 358, 370, 357, 356, 355]

/-- `CategoryLocalized`, modelled as its validated integer value (an
`IntEnum` is, semantically, a finite set of integers). -/
structure CategoryLocalized where
  val : Int
deriving DecidableEq, Repr

/-- `CategoryLocalized(n)`: `IntEnum` value lookup, raising on unknown
values. -/
def CategoryLocalized.ofInt (v : Int) : Except String CategoryLocalized :=
  if categoryLocalizedValues.contains v then .ok ⟨v⟩
  else .error "is not a valid CategoryLocalized"

/-- `Difficulty` (`constants.py`): a `StrEnum` whose member values are
the French difficulty names. -/
inductive Difficulty
  | VERY_EASY | EASY | MEDIUM | HARD | VERY_HARD
deriving DecidableEq, Repr

/-- `StrEnum` member values of `Difficulty`. -/
def Difficulty.value : Difficulty → String
  | .VERY_EASY => "Très facile"
  | .EASY => "Facile"
  | .MEDIUM => "Moyen"
  | .HARD => "Difficile"
  | .VERY_HARD => "Très difficile"

def Difficulty.members : List Difficulty :=
  [.VERY_EASY, .EASY, .MEDIUM, .HARD, .VERY_HARD]

/-- `DIFFICULTY_NAMES` (`constants.py`): localized difficulty phrases,
in the dict's iteration order (FR, EN, DE). -/
def DIFFICULTY_NAMES : List (Language × List (Difficulty × String)) :=
  [(.FR, [(.VERY_EASY, "Très facile"), (.EASY, "Facile"), (.MEDIUM, "Moyen"),
          (.HARD, "Difficile"), (.VERY_HARD, "Très difficile")]),
   (.EN, [(.VERY_EASY, "Very easy"), (.EASY, "Easy"), (.MEDIUM, "Medium"),
          (.HARD, "Hard"), (.VERY_HARD, "Very hard")]),
   (.DE, [(.VERY_EASY, "Sehr einfach"), (.EASY, "Einfach"), (.MEDIUM, "Mittel"),
          (.HARD, "Schwer"), (.VERY_HARD, "Sehr Schwer")])]

/-- Inner loop of `Difficulty.from_str`: first name in one locale table
whose lowercasing equals `valueStr`. -/
def findInTable (valueStr : String) : List (Difficulty × String) → Option Difficulty
  | [] => none
  | (d, name) :: r => if valueStr = pyLower name then some d else findInTable valueStr r

/-- Outer loop of `Difficulty.from_str`, over the locale tables in
iteration order. -/
def findDifficulty (valueStr : String) : List (Language × List (Difficulty × String)) → Option Difficulty
  | [] => none
  | (_, tbl) :: rest =>
    match findInTable valueStr tbl with
    | some d => some d
    | none => findDifficulty valueStr rest

/-- `Difficulty(s)`: `StrEnum` value lookup, which succeeds only when
`s` equals a member value exactly. -/
def Difficulty.ofValue (s : String) : Option Difficulty :=
  Difficulty.members.find? (fun d => d.value == s)

/-- `Difficulty.from_str` (`constants.py`, lines 290–297): strip tags,
lowercase, scan the localized name tables case-insensitively; if no
name matches, fall back to the `StrEnum` call `cls(value_str)`, which
raises `ValueError` (modelled as `.error` carrying the offending
string) when `value_str` is not a member value. -/
def Difficulty.from_str (value : String) : Except String Difficulty :=
  let valueStr := pyLower (strip_tags value)
  match findDifficulty valueStr DIFFICULTY_NAMES with
  | some d => .ok d
  | none =>
    match Difficulty.ofValue valueStr with
    | some d => .ok d
    | none => .error valueStr

/-- Link direction (`RelType` / the `Rel` `StrEnum` in
`constants.py`). -/
inductive RelType
  | previous | next
deriving DecidableEq, Repr

example : Difficulty.from_str "Très facile" = .ok .VERY_EASY := by decide
example : Difficulty.from_str "VERY EASY" = .ok .VERY_EASY := by decide
example : Difficulty.from_str "<span lang=\"fr\">Très difficile</span>" = .ok .VERY_HARD := by decide
example : Difficulty.from_str "Muito fácil" = .error "muito fácil" := by decide

/-- Wire schema of a short author (`AuthorShortDict`). -/
structure AuthorShortDict where
  id_auteur : String
  nom : String
deriving DecidableEq, Repr

/-- Decoded short-author record (`AuthorShort`). -/
structure AuthorShort where
  id_auteur : Int
  nom : String
deriving DecidableEq, Repr

/-- `AuthorShort.from_dict` (`datamodel.py`). -/
def AuthorShort.from_dict (data : AuthorShortDict) : Except String AuthorShort := do
  let id ← parse_int data.id_auteur
  return { id_auteur := id, nom := data.nom }

/-- Wire schema of a very short challenge (`ChallengeVeryShortDict`). -/
structure ChallengeVeryShortDict where
  id_challenge : String
  titre : String
  url_challenge : String
deriving DecidableEq, Repr

/-- Decoded very-short-challenge record (`ChallengeVeryShort`). -/
structure ChallengeVeryShort where
  id_challenge : Int
  titre : String
  url_challenge : String
deriving DecidableEq, Repr

/-- `ChallengeVeryShort.from_dict` (`datamodel.py`). -/
def ChallengeVeryShort.from_dict (data : ChallengeVeryShortDict) :
    Except String ChallengeVeryShort := do
  let id ← parse_int data.id_challenge
  return { id_challenge := id, titre := unescape data.titre, url_challenge := data.url_challenge }

/-- Wire schema of a solution (`SolutionDict`). -/
structure SolutionDict where
  id_solution : String
  url_solution : String
deriving DecidableEq, Repr

/-- Decoded solution record (`Solution`). -/
structure Solution where
  id_solution : Int
  url_solution : String
deriving DecidableEq, Repr

/-- `Solution.from_dict` (`datamodel.py`). -/
def Solution.from_dict (data : SolutionDict) : Except String Solution := do
  let id ← parse_int data.id_solution
  return { id_solution := id, url_solution := data.url_solution }

/-- Wire schema of an author-side validation (`ValidationAuthorDict`). -/
structure ValidationAuthorDict where
  id_challenge : String
  titre : String
  id_rubrique : String
  date : String
deriving DecidableEq, Repr

/-- Decoded author-side validation (`ValidationAuthor`). -/
structure ValidationAuthor where
  id_challenge : Int
  titre : String
  id_rubrique : CategoryLocalized
  date : PyDateTime
deriving DecidableEq, Repr

/-- `ValidationAuthor.from_dict` (`datamodel.py`). -/
def ValidationAuthor.from_dict (data : ValidationAuthorDict) : Except String ValidationAuthor := do
  let id ← parse_int data.id_challenge
  let rubN ← parse_int data.id_rubrique
  let rub ← CategoryLocalized.ofInt rubN
  let dt ← parse_date data.date
  return { id_challenge := id, titre := unescape data.titre, id_rubrique := rub, date := dt }

/-- Wire schema of a challenge-side validation (`ValidationChallengeDict`). -/
structure ValidationChallengeDict where
  id_auteur : String
  date : String
deriving DecidableEq, Repr

/-- Decoded challenge-side validation (`ValidationChallenge`). -/
structure ValidationChallenge where
  id_auteur : Int
  date : PyDateTime
deriving DecidableEq, Repr

/-- `ValidationChallenge.from_dict` (`datamodel.py`). -/
def ValidationChallenge.from_dict (data : ValidationChallengeDict) :
    Except String ValidationChallenge := do
  let id ← parse_int data.id_auteur
  let dt ← parse_date data.date
  return { id_auteur := id, date := dt }

/-- Wire schema of a short challenge (`ChallengeShortDict`). -/
structure ChallengeShortDict where
  id_challenge : String
  id_rubrique : String
  titre : String
  lang : String
  date_publication : String
  maj : String
deriving DecidableEq, Repr

/-- Decoded short-challenge record (`ChallengeShort`). -/
structure ChallengeShort where
  id_challenge : Int
  id_rubrique : CategoryLocalized
  titre : String
  lang : Language
  date_publication : PyDateTime
  maj : PyDateTime
deriving DecidableEq, Repr

/-- `ChallengeShort.from_dict` (`datamodel.py`). -/
def ChallengeShort.from_dict (data : ChallengeShortDict) : Except String ChallengeShort := do
  let id ← parse_int data.id_challenge
  let rubN ← parse_int data.id_rubrique
  let rub ← CategoryLocalized.ofInt rubN
  let lg ← Language.ofCode data.lang
  let dp ← parse_date data.date_publication
  let mj ← parse_date data.maj
  return { id_challenge := id, id_rubrique := rub, titre := unescape data.titre,
           lang := lg, date_publication := dp, maj := mj }

/-- The wire type of the full author's rank-position field:
`int | Literal[""]` (`AuthorDict.position` in `datamodel.py`). -/
inductive WirePos
  | int (n : Int)
  | empty
deriving DecidableEq, Repr

/-- Python truthiness collapse `data["position"] or None`: the integer
`0` and the empty string are both falsy and both become `None`. -/
def WirePos.orNone : WirePos → Option Int
  | .int n => if n = 0 then none else some n
  | .empty => none

/-- Wire schema of a full author (`AuthorDict`); `rang` is
`NotRequired`, modelled as an `Option`al field (absence, not an
unrecognized value, is the only "no value" case). -/
structure AuthorDict where
  id_auteur : String
  nom : String
  statut : String
  logo_url : String
  score : String
  position : WirePos
  rang : Option String
  membre : String
  challenges : List ChallengeVeryShortDict
  solutions : List SolutionDict
  validations : List ValidationAuthorDict
deriving DecidableEq, Repr

/-- Decoded full-author record (`Author`). -/
structure Author where
  id_auteur : Int
  nom : String
  statut : AccountType
  logo_url : String
  score : Int
  position : Option Int
  rang : Option Rank
  membre : Bool
  challenges : List ChallengeVeryShort
  solutions : List Solution
  validations : List ValidationAuthor
deriving DecidableEq, Repr

/-- `Author.from_dict` (`datamodel.py`, lines 281–299): field-by-field
decoding in source order; `score` uses a bare `int(...)`, `position`
the truthiness collapse `or None`, `rang` is decoded only when present,
`membre` goes through `parse_bool`, and the three embedded lists are
decoded recursively in order. -/
def Author.from_dict (data : AuthorDict) : Except String Author := do
  let id ← parse_int data.id_auteur
  let st ← AccountType.ofCode data.statut
  let sc ← pyInt data.score
  let rg ← (match data.rang with
            | some c => do
              let r ← Rank.ofCode c
              pure (some r)
            | none => pure none)
  let chs ← data.challenges.mapM ChallengeVeryShort.from_dict
  let sols ← data.solutions.mapM Solution.from_dict
  let vals ← data.validations.mapM ValidationAuthor.from_dict
  return { id_auteur := id, nom := data.nom, statut := st, logo_url := data.logo_url,
           score := sc, position := data.position.orNone, rang := rg,
           membre := parse_bool data.membre, challenges := chs, solutions := sols,
           validations := vals }

/-- An ID-keyed collection on the wire: numeric-string keys to raw
field mappings, in the order received (`DictList` in `types.py`;
a Python dict iterates in insertion order). -/
abbrev DictList (δ : Type) := List (String × δ)

/-- Wire schema of a full challenge (`ChallengeDict`). -/
structure ChallengeDict where
  titre : String
  rubrique : String
  soustitre : String
  score : String
  index_challenge : String
  id_rubrique : String
  id_trad : String
  url_challenge : String
  date_publication : String
  maj : String
  difficulte : String
  auteurs : DictList AuthorShortDict
  validations : DictList ValidationChallengeDict
deriving DecidableEq, Repr

/-- Decoded full-challenge record (`Challenge`). -/
structure Challenge where
  titre : String
  rubrique : String
  soustitre : String
  score : Int
  index_challenge : String
  id_rubrique : CategoryLocalized
  id_trad : Int
  url_challenge : String
  date_publication : PyDateTime
  maj : PyDateTime
  difficulte : Difficulty
  auteurs : List AuthorShort
  validations : List ValidationChallenge
deriving DecidableEq, Repr

/-- `Challenge.from_dict` (`datamodel.py`): the embedded keyed
collections are decoded over `.values()` in iteration order. -/
def Challenge.from_dict (data : ChallengeDict) : Except String Challenge := do
  let sc ← parse_int data.score
  let rubN ← parse_int data.id_rubrique
  let rub ← CategoryLocalized.ofInt rubN
  let trad ← parse_int data.id_trad
  let dp ← parse_date data.date_publication
  let mj ← parse_date data.maj
  let diff ← Difficulty.from_str data.difficulte
  let auts ← data.auteurs.mapM (fun kv => AuthorShort.from_dict kv.2)
  let vals ← data.validations.mapM (fun kv => ValidationChallenge.from_dict kv.2)
  return { titre := unescape data.titre, rubrique := data.rubrique,
           soustitre := unescape data.soustitre, score := sc,
           index_challenge := data.index_challenge, id_rubrique := rub, id_trad := trad,
           url_challenge := data.url_challenge, date_publication := dp, maj := mj,
           difficulte := diff, auteurs := auts, validations := vals }

/-- `TypedDictDataclass.from_dictlist` (`datamodel.py`, lines 218–220):
`[cls.from_dict(val) for val in dictlist.values()]` — decode every
value of the keyed collection, in the mapping's own key-iteration
order, aborting on the first decode error. -/
def from_dictlist (from_dict : δ → Except String ρ) (dictlist : DictList δ) :
    Except String (List ρ) :=
  dictlist.mapM (fun kv => from_dict kv.2)

/-- The closed set of record variants (the concrete
`TypedDictDataclass` subclasses). -/
inductive Variant
  | authorShort | author | challengeVeryShort | challengeShort | challenge
  | solution | validationAuthor | validationChallenge
deriving DecidableEq, Repr

/-- A domain record known only through the common `TypedDictDataclass`
capability. -/
inductive AnyRecord
  | authorShort (a : AuthorShort)
  | author (a : Author)
  | challengeVeryShort (c : ChallengeVeryShort)
  | challengeShort (c : ChallengeShort)
  | challenge (c : Challenge)
  | solution (s : Solution)
  | validationAuthor (v : ValidationAuthor)
  | validationChallenge (v : ValidationChallenge)
deriving DecidableEq, Repr

/-- The actual variant (runtime class) of a record. -/
def AnyRecord.variant : AnyRecord → Variant
  | .authorShort _ => .authorShort
  | .author _ => .author
  | .challengeVeryShort _ => .challengeVeryShort
  | .challengeShort _ => .challengeShort
  | .challenge _ => .challenge
  | .solution _ => .solution
  | .validationAuthor _ => .validationAuthor
  | .validationChallenge _ => .validationChallenge

/-- `TypedDictDataclass.as_type` (`datamodel.py`, lines 225–229):
`isinstance` narrowing — return the record itself unchanged when its
class matches the requested one, raise `TypeError` otherwise. -/
def AnyRecord.as_type (self : AnyRecord) (target : Variant) : Except String AnyRecord :=
  if self.variant = target then .ok self
  else .error "Cannot convert to target type"

example : AuthorShort.from_dict ⟨"42", "Ada"⟩ = .ok ⟨42, "Ada"⟩ := by decide
example : ChallengeVeryShort.from_dict ⟨"7", "A &amp; B", "/challenges/7"⟩ =
    .ok ⟨7, "A & B", "/challenges/7"⟩ := by decide
example : (AuthorShort.from_dict ⟨"x42", "Ada"⟩).isOk = false := by decide

/-- Rel-link set: a `dict[RelType, Url]` over the two-valued direction
type, modelled as one optional URL per direction. -/
structure Rels where
  previous : Option Url := none
  next : Option Url := none
deriving DecidableEq, Repr

/-- Page envelope (`PagedData` in `paged.py`): a payload together with
its rel-link set; immutable after construction. -/
structure PagedData (α : Type) where
  data : α
  rels : Rels
deriving DecidableEq, Repr

/-- `PagedData.rel` (`paged.py`, lines 37–38): plain lookup of one
direction's URL. -/
def PagedData.rel (p : PagedData α) (r : RelType) : Option Url :=
  match r with
  | .previous => p.rels.previous
  | .next => p.rels.next

/-- `PagedData.get_rel_start` (`paged.py`, lines 62–72): `None` when
the direction has no link; otherwise parse the link's query, convert
the value of every parameter whose key starts with `debut_` with
`int(...)` (each conversion may raise), then: zero matches → cursor 0,
one match → that integer, several matches → `ValueError`. -/
def PagedData.get_rel_start (p : PagedData α) (r : RelType) : Except String (Option Int) :=
  match p.rel r with
  | none => .ok none
  | some url => do
    let query := parse_url_qsl url
    let start_values ← (query.filter (fun kv => "debut_".data.isPrefixOf kv.1.data)).mapM
      (fun kv => pyInt kv.2)
    match start_values with
    | [] => return some 0
    | [v] => return some v
    | _ => .error "Multiple start values found in URL query"

/-- List envelope (`PagedList`): a list payload sharing the rel-link
behaviour of `PagedData`. -/
abbrev PagedList (α : Type) := PagedData (List α)

/-- `PagedList.__getitem__` on a slice `a:b` (`paged.py`, lines
113–120): `type(self)(self._data[index], self._rels)` — a new envelope
with the sliced items and the original rel-link set.  Python's
nonnegative slice `l[a:b]` is `(l.drop a).take (b - a)`. -/
def PagedList.getitem_slice (p : PagedList α) (a b : Nat) : PagedList α :=
  { data := (p.data.drop a).take (b - a), rels := p.rels }

/-- `API_URL` (`api.py`, line 24). -/
def API_URL : String := "https://api.www.root-me.org"

/-- The endpoint and grouped query that `get_rel_page` hands to the
fetch capability once a link has been validated. -/
structure FetchPlan where
  endpoint : String
  query : List (String × List String)
deriving DecidableEq, Repr

/-- The link-resolution part of `RootMeAPI.get_rel_page` (`api.py`,
lines 104–115), up to the injected fetch: `None` when the direction has
no link; `ValueError` (the protocol error) when the link's
`scheme://netloc` differs from the API's own base; otherwise the fetch
plan (path with leading slashes stripped, `parse_qs`-grouped query)
that is issued — the fetch itself is the external capability. -/
def get_rel_page (p : PagedData α) (r : RelType) : Except String (Option FetchPlan) :=
  match p.rel r with
  | none => .ok none
  | some url =>
    let su := split_url url
    if su.scheme ++ "://" ++ su.netloc ≠ pyRstrip API_URL '/' then
      .error "URL is not part of the Root-Me API"
    else
      .ok (some { endpoint := pyLstrip su.path '/', query := parse_qs su.query })

/-- `RootMeAPI.iter_list_pages` (`api.py`, lines 170–178), embedded
with explicit fuel for the unbounded `while True:` loop.  `step`
abstracts `get_next_page` composed with the injected fetch and
re-decode: it yields the next envelope, `none` when no `next` link is
present, or an error.  The result is the sequence of pages the
generator yields, paired with the error that aborted it, if any. -/
def iter_list_pages (step : α → Except ε (Option α)) : Nat → α → List α × Option ε
  | 0, p => ([p], none)
  | n + 1, p =>
    match step p with
    | .error e => ([p], some e)
    | .ok none => ([p], none)
    | .ok (some q) =>
      let rest := iter_list_pages step n q
      (p :: rest.1, rest.2)

example :
    PagedData.get_rel_start (α := List AuthorShort)
      ⟨[], { next := some "https://api.www.root-me.org/challenges?debut_challenges=20" }⟩
      .next = .ok (some 20) := by decide
example :
    PagedData.get_rel_start (α := List AuthorShort)
      ⟨[], { next := some "https://api.www.root-me.org/challenges" }⟩ .next =
      .ok (some 0) := by decide
example :
    PagedData.get_rel_start (α := List AuthorShort) ⟨[], {}⟩ .next = .ok none := by decide
example :
    (get_rel_page (α := List AuthorShort)
      ⟨[], { next := some "https://evil.example/challenges" }⟩ .next) =
      .error "URL is not part of the Root-Me API" := by decide
example :
    (get_rel_page (α := List AuthorShort)
      ⟨[], { next := some "https://api.www.root-me.org/challenges?a=1&a=2" }⟩ .next) =
      .ok (some ⟨"challenges", [("a", ["1", "2"])]⟩) := by decide

example : parse_bool "true" = true := by decide
example : parse_bool "false" = false := by decide
example : parse_bool "maybe" = false := by decide
example : pyInt "42" = .ok 42 := by decide
example : pyInt "-4_2" = .ok (-42) := by decide
example : pyInt "4a" = .error "invalid literal for int() with base 10" := by decide
example : unescape "A &amp; B" = "A & B" := by decide
example : strip_tags "<span lang=\"fr\">Très facile</span>" = "Très facile" := by decide
example : (parse_date "2024-02-29 10:30:00").isOk = true := by decide
example : (parse_date "2023-02-29").isOk = false := by decide

/-! ## Claims -/

theorem pyLowerChar_not_upper (c : Char) :
    pyLowerChar c ≠ 'T' ∧ pyLowerChar c ≠ 'F' ∧ pyLowerChar c ≠ 'M' ∧ pyLowerChar c ≠ 'D' := by
  unfold pyLowerChar
  split <;> simp_all

theorem pyLower_ne_of_head (s w : String) (c : Char) (hw : w.data.head? = some c)
    (hc : ∀ c0, pyLowerChar c0 ≠ c) : pyLower s ≠ w := by
  intro h
  have hdata : s.data.map pyLowerChar = w.data := congrArg String.data h
  cases hs : s.data with
  | nil =>
    rw [hs] at hdata
    rw [← hdata] at hw
    simp at hw
  | cons c0 t =>
    rw [hs] at hdata
    rw [← hdata] at hw
    simp only [List.map_cons, List.head?_cons, Option.some.injEq] at hw
    exact hc c0 hw

/-- The `StrEnum` call `Difficulty(value_str)` can never succeed on a
lowercased string: every member value starts with an uppercase letter,
which `str.lower` output cannot contain. -/
theorem difficulty_ofValue_pyLower (s : String) : Difficulty.ofValue (pyLower s) = none := by
  unfold Difficulty.ofValue Difficulty.members
  rw [List.find?_eq_none]
  intro d hd
  simp only [List.mem_cons, List.not_mem_nil, or_false] at hd
  have hne : d.value ≠ pyLower s := by
    rcases hd with h | h | h | h | h
    · subst h
      exact (pyLower_ne_of_head s _ 'T' (by decide) (fun c0 => (pyLowerChar_not_upper c0).1)).symm
    · subst h
      exact (pyLower_ne_of_head s _ 'F' (by decide) (fun c0 => (pyLowerChar_not_upper c0).2.1)).symm
    · subst h
      exact (pyLower_ne_of_head s _ 'M' (by decide) (fun c0 => (pyLowerChar_not_upper c0).2.2.1)).symm
    · subst h
      exact (pyLower_ne_of_head s _ 'D' (by decide) (fun c0 => (pyLowerChar_not_upper c0).2.2.2)).symm
    · subst h
      exact (pyLower_ne_of_head s _ 'T' (by decide) (fun c0 => (pyLowerChar_not_upper c0).1)).symm
  simpa using hne

/-- **C1** counterexample: the wire phrase `"Muito fácil"` matches no
entry of the difficulty phrase table in any locale (case-insensitively),
yet `Difficulty.from_str` raises (`.error`) instead of returning a
difficulty retaining the raw phrase. -/
theorem C1_counterexample :
    findDifficulty (pyLower (strip_tags "Muito fácil")) DIFFICULTY_NAMES = none ∧
    Difficulty.from_str "Muito fácil" = .error "muito fácil" := by
  constructor
  · decide
  · decide

/-- **C1** (amended): for every difficulty wire phrase that matches no
entry of the table of known phrases across supported locales
(case-insensitively, after tag stripping), `Difficulty.from_str`
raises a `ValueError` (modelled `.error`) carrying the normalized
phrase — the fallback `cls(value_str)` always fails on the lowercased
phrase, so decoding is *not* lenient on unmatched phrases. -/
theorem C1_unmatched_raises (v : String)
    (h : findDifficulty (pyLower (strip_tags v)) DIFFICULTY_NAMES = none) :
    Difficulty.from_str v = .error (pyLower (strip_tags v)) := by
  unfold Difficulty.from_str
  simp only [h, difficulty_ofValue_pyLower]

/-- Witness for `C1_unmatched_raises` at the concrete phrase
`"mysterious"`. -/
theorem C1_unmatched_raises_witness :
    findDifficulty (pyLower (strip_tags "mysterious")) DIFFICULTY_NAMES = none ∧
    Difficulty.from_str "mysterious" = .error (pyLower (strip_tags "mysterious")) :=
  ⟨by decide, C1_unmatched_raises "mysterious" (by decide)⟩

theorem bindOk (a : α) (f : α → Except ε β) : (Except.ok a >>= f) = f a := rfl

theorem bindError (e : ε) (f : α → Except ε β) :
    ((Except.error e : Except ε α) >>= f) = .error e := rfl

theorem pureOk (a : α) : (pure a : Except ε α) = .ok a := rfl

/-- Elimination of a successful `Author.from_dict`: the decoded record's
`position` is the truthiness collapse of the wire value, its `membre`
is `parse_bool` of the wire value, and replacing the `membre` wire
value by any string still decodes, changing only the `membre` field. -/
theorem Author.from_dict_ok_elim (d : AuthorDict) (a : Author)
    (h : Author.from_dict d = .ok a) :
    a.position = d.position.orNone ∧ a.membre = parse_bool d.membre ∧
    ∀ v, Author.from_dict { d with membre := v } = .ok { a with membre := parse_bool v } := by
  unfold Author.from_dict at h ⊢
  cases h1 : parse_int d.id_auteur with
  | error e => rw [h1] at h; simp [bindError] at h
  | ok idv =>
  rw [h1] at h
  simp only [bindOk] at h
  cases h2 : AccountType.ofCode d.statut with
  | error e => rw [h2] at h; simp [bindError] at h
  | ok st =>
  rw [h2] at h
  simp only [bindOk] at h
  cases h3 : pyInt d.score with
  | error e => rw [h3] at h; simp [bindError] at h
  | ok sc =>
  rw [h3] at h
  simp only [bindOk] at h
  cases hr : d.rang with
  | none =>
    rw [hr] at h
    simp only [pureOk, bindOk] at h
    cases h5 : d.challenges.mapM ChallengeVeryShort.from_dict with
    | error e => rw [h5] at h; simp [bindError] at h
    | ok chs =>
    rw [h5] at h
    simp only [bindOk] at h
    cases h6 : d.solutions.mapM Solution.from_dict with
    | error e => rw [h6] at h; simp [bindError] at h
    | ok sols =>
    rw [h6] at h
    simp only [bindOk] at h
    cases h7 : d.validations.mapM ValidationAuthor.from_dict with
    | error e => rw [h7] at h; simp [bindError] at h
    | ok vals =>
    rw [h7] at h
    simp only [bindOk, pureOk, Except.ok.injEq] at h
    subst h
    refine ⟨rfl, rfl, ?_⟩
    intro v
    simp only [hr, h1, h2, h3, h5, h6, h7, bindOk, bindError, pureOk]
  | some c =>
    rw [hr] at h
    simp only [bindOk] at h
    cases h4 : Rank.ofCode c with
    | error e => rw [h4] at h; simp [bindError] at h
    | ok rg =>
    rw [h4] at h
    simp only [bindOk, pureOk] at h
    cases h5 : d.challenges.mapM ChallengeVeryShort.from_dict with
    | error e => rw [h5] at h; simp [bindError] at h
    | ok chs =>
    rw [h5] at h
    simp only [bindOk] at h
    cases h6 : d.solutions.mapM Solution.from_dict with
    | error e => rw [h6] at h; simp [bindError] at h
    | ok sols =>
    rw [h6] at h
    simp only [bindOk] at h
    cases h7 : d.validations.mapM ValidationAuthor.from_dict with
    | error e => rw [h7] at h; simp [bindError] at h
    | ok vals =>
    rw [h7] at h
    simp only [bindOk, pureOk, Except.ok.injEq] at h
    subst h
    refine ⟨rfl, rfl, ?_⟩
    intro v
    simp only [hr, h1, h2, h3, h4, h5, h6, h7, bindOk, bindError, pureOk]

/-- **C2** counterexample: a full-author mapping whose `membre` field
holds `"maybe"` — neither `"true"` nor `"false"` — decodes
*successfully*, yielding a record with `membre = false`, instead of
raising a `DecodeError`. -/
theorem C2_counterexample :
    Author.from_dict
        ⟨"42", "Ada", "0minirezo", "IMG/logo.png", "1000", .int 5, some "elite",
         "maybe", [], [], []⟩ =
      .ok ⟨42, "Ada", .ADMIN, "IMG/logo.png", 1000, some 5, some .ELITE, false, [], [], []⟩ := by
  decide

/-- **C2** (amended): the boolean-string field never causes a decode
failure: `parse_bool` maps exactly `"true"` to `True` and every other
value — including `"false"` and malformed values — to `False`.  Hence a
full-author mapping that otherwise decodes still decodes when its
`membre` value is replaced by any string `v`, producing
`membre = (v == "true")`. -/
theorem C2_membre_never_fails (d : AuthorDict) (a : Author) (v : String)
    (h : Author.from_dict d = .ok a) :
    parse_bool v = (v == "true") ∧
    Author.from_dict { d with membre := v } = .ok { a with membre := (v == "true") } := by
  refine ⟨rfl, ?_⟩
  have hsub := (Author.from_dict_ok_elim d a h).2.2 v
  simpa [parse_bool] using hsub

/-- Witness for `C2_membre_never_fails`: the otherwise-valid mapping
with `membre = "maybe"`. -/
theorem C2_membre_never_fails_witness :
    parse_bool "maybe" = ("maybe" == "true") ∧
    Author.from_dict
        ⟨"42", "Ada", "0minirezo", "IMG/logo.png", "1000", .int 5, some "elite",
         "maybe", [], [], []⟩ =
      .ok ⟨42, "Ada", .ADMIN, "IMG/logo.png", 1000, some 5, some .ELITE,
           ("maybe" == "true"), [], [], []⟩ :=
  C2_membre_never_fails
    ⟨"42", "Ada", "0minirezo", "IMG/logo.png", "1000", .int 5, some "elite",
     "true", [], [], []⟩
    ⟨42, "Ada", .ADMIN, "IMG/logo.png", 1000, some 5, some .ELITE, true, [], [], []⟩
    "maybe" (by decide)

/-- **C9**: decoding a full-author mapping collapses every falsy
rank-position wire value to `None`: the decoded `position` is `none`
exactly when the wire value was the empty string *or* the integer 0, so
`none` does not distinguish "no position" from position zero. -/
theorem C9_position_collapse (d : AuthorDict) (a : Author)
    (h : Author.from_dict d = .ok a) :
    a.position = none ↔ (d.position = .empty ∨ d.position = .int 0) := by
  have hpos := (Author.from_dict_ok_elim d a h).1
  rw [hpos]
  cases d.position with
  | empty => simp [WirePos.orNone]
  | int n => by_cases hn : n = 0 <;> simp [WirePos.orNone, hn]

/-- Witness for `C9_position_collapse` at a mapping carrying wire
position `0`. -/
theorem C9_position_collapse_witness :
    Author.from_dict
        ⟨"42", "Ada", "0minirezo", "IMG/logo.png", "1000", .int 0, some "elite",
         "true", [], [], []⟩ =
      .ok ⟨42, "Ada", .ADMIN, "IMG/logo.png", 1000, none, some .ELITE, true, [], [], []⟩ ∧
    ((⟨42, "Ada", .ADMIN, "IMG/logo.png", 1000, none, some .ELITE, true, [], [], []⟩ :
        Author).position = none ↔
      ((WirePos.int 0) = .empty ∨ (WirePos.int 0) = .int 0)) :=
  ⟨by decide,
   C9_position_collapse
     ⟨"42", "Ada", "0minirezo", "IMG/logo.png", "1000", .int 0, some "elite",
      "true", [], [], []⟩
     ⟨42, "Ada", .ADMIN, "IMG/logo.png", 1000, none, some .ELITE, true, [], [], []⟩
     (by decide)⟩

/-- **C7**: the narrowing operation `as_type` returns the record itself,
unconverted, when the record's actual variant is the requested one, and
raises a type-mismatch error otherwise; it never converts between
variants. -/
theorem C7_as_type (r : AnyRecord) (t : Variant) :
    (r.variant = t → r.as_type t = .ok r) ∧
    (r.variant ≠ t → r.as_type t = .error "Cannot convert to target type") := by
  unfold AnyRecord.as_type
  constructor
  · intro h
    rw [if_pos h]
  · intro h
    rw [if_neg h]

/-- Witness for `C7_as_type`: a short-author record narrows to its own
variant unchanged, and narrowing it to the solution variant raises. -/
theorem C7_as_type_witness :
    (AnyRecord.authorShort ⟨42, "Ada"⟩).as_type .authorShort =
      .ok (.authorShort ⟨42, "Ada"⟩) ∧
    (AnyRecord.authorShort ⟨42, "Ada"⟩).as_type .solution =
      .error "Cannot convert to target type" :=
  ⟨(C7_as_type (.authorShort ⟨42, "Ada"⟩) .authorShort).1 (by decide),
   (C7_as_type (.authorShort ⟨42, "Ada"⟩) .solution).2 (by decide)⟩

/-- **C5**: when every value of a keyed collection decodes, the
keyed-collection decoder succeeds with one decoded record per key, in
the mapping's own key-iteration order (element `i` of the output is the
decode of value `i` of the input, whatever the keys are — never
re-sorted); in particular the empty mapping decodes to the empty
list. -/
theorem C5_from_dictlist (f : δ → Except String ρ) (dl : DictList δ)
    (dec : ∀ kv ∈ dl, ∃ r, f kv.2 = .ok r) :
    ∃ rs, from_dictlist f dl = .ok rs ∧ rs.length = dl.length ∧
      ∀ i (h1 : i < dl.length) (h2 : i < rs.length),
        f (dl.get ⟨i, h1⟩).2 = .ok (rs.get ⟨i, h2⟩) := by
  induction dl with
  | nil =>
    refine ⟨[], rfl, rfl, ?_⟩
    intro i h1
    exact absurd h1 (by simp)
  | cons kv tl ih =>
    obtain ⟨r, hr⟩ := dec kv (by simp)
    obtain ⟨rs, hrs, hlen, hget⟩ := ih (fun kv h => dec kv (by simp [h]))
    refine ⟨r :: rs, ?_, by simp [hlen], ?_⟩
    · unfold from_dictlist at hrs ⊢
      rw [List.mapM_cons, hr, hrs]
      rfl
    · intro i h1 h2
      match i with
      | 0 => simpa using hr
      | Nat.succ j =>
        simpa using hget j (by simpa using h1) (by simpa using h2)

/-- Witness for `C5_from_dictlist`: a two-key collection whose keys are
out of sorted order ("3" before "1"); the decoder preserves mapping
order. -/
theorem C5_from_dictlist_witness :
    ∃ rs, from_dictlist AuthorShort.from_dict [("3", ⟨"2", "B"⟩), ("1", ⟨"1", "A"⟩)] = .ok rs ∧
      rs.length = [("3", (⟨"2", "B"⟩ : AuthorShortDict)), ("1", ⟨"1", "A"⟩)].length ∧
      ∀ i (h1 : i < [("3", (⟨"2", "B"⟩ : AuthorShortDict)), ("1", ⟨"1", "A"⟩)].length)
          (h2 : i < rs.length),
        AuthorShort.from_dict
            ([("3", (⟨"2", "B"⟩ : AuthorShortDict)), ("1", ⟨"1", "A"⟩)].get ⟨i, h1⟩).2 =
          .ok (rs.get ⟨i, h2⟩) :=
  C5_from_dictlist AuthorShort.from_dict [("3", ⟨"2", "B"⟩), ("1", ⟨"1", "A"⟩)] (by
    intro kv h
    simp only [List.mem_cons, List.not_mem_nil, or_false] at h
    rcases h with h | h
    · exact ⟨⟨2, "B"⟩, by rw [h]; decide⟩
    · exact ⟨⟨1, "A"⟩, by rw [h]; decide⟩)

/-- **C6**: slicing a List Envelope with a valid range `[a, b)` yields a
new envelope whose rel-link set is the original, unmodified one, and
whose item list is exactly the restriction of the original items to
positions `[a, b)`. -/
theorem C6_slice (p : PagedList α) (a b : Nat) (hab : a ≤ b) (hb : b ≤ p.data.length) :
    (PagedList.getitem_slice p a b).rels = p.rels ∧
    (PagedList.getitem_slice p a b).data.length = b - a ∧
    ∀ i (h2 : i < (PagedList.getitem_slice p a b).data.length) (h3 : a + i < p.data.length),
      (PagedList.getitem_slice p a b).data.get ⟨i, h2⟩ = p.data.get ⟨a + i, h3⟩ := by
  refine ⟨rfl, ?_, ?_⟩
  · simp only [PagedList.getitem_slice, List.length_take, List.length_drop]
    omega
  · intro i h2 h3
    simp only [PagedList.getitem_slice, List.get_eq_getElem] at h2 ⊢
    simp only [List.getElem_take, List.getElem_drop]

/-- Witness for `C6_slice`: slicing `[10, 20, 30, 40]` with `1:3` under
rel links keeps the links and selects items 1 and 2. -/
theorem C6_slice_witness :
    (PagedList.getitem_slice
        (⟨[10, 20, 30, 40], { next := some "n", previous := some "p" }⟩ : PagedList Nat) 1 3).rels =
      (⟨[10, 20, 30, 40], { next := some "n", previous := some "p" }⟩ :
        PagedList Nat).rels ∧
    (PagedList.getitem_slice
        (⟨[10, 20, 30, 40], { next := some "n", previous := some "p" }⟩ : PagedList Nat) 1 3).data.length = 3 - 1 ∧
    ∀ i (h2 : i < (PagedList.getitem_slice
          (⟨[10, 20, 30, 40], { next := some "n", previous := some "p" }⟩ : PagedList Nat) 1 3).data.length)
        (h3 : 1 + i < (⟨[10, 20, 30, 40], { next := some "n", previous := some "p" }⟩ :
          PagedList Nat).data.length),
      (PagedList.getitem_slice
          (⟨[10, 20, 30, 40], { next := some "n", previous := some "p" }⟩ : PagedList Nat) 1 3).data.get ⟨i, h2⟩ =
        (⟨[10, 20, 30, 40], { next := some "n", previous := some "p" }⟩ :
          PagedList Nat).data.get ⟨1 + i, h3⟩ :=
  C6_slice ⟨[10, 20, 30, 40], { next := some "n", previous := some "p" }⟩ 1 3
    (by decide) (by decide)

/-- A monadic map over `Except` either fails or returns exactly one
result per input element. -/
theorem mapM_except_length (f : α → Except ε β) (l : List α) :
    (∃ e, l.mapM f = .error e) ∨ (∃ rs, l.mapM f = .ok rs ∧ rs.length = l.length) := by
  induction l with
  | nil => right; exact ⟨[], rfl, rfl⟩
  | cons x t ih =>
    cases hx : f x with
    | error e =>
      left
      exact ⟨e, by rw [List.mapM_cons, hx]; rfl⟩
    | ok b =>
      rcases ih with ⟨e, he⟩ | ⟨rs, hrs, hlen⟩
      · left
        refine ⟨e, ?_⟩
        rw [List.mapM_cons, hx]
        simp only [bindOk]
        rw [he]
        rfl
      · right
        refine ⟨b :: rs, ?_, by simp [hlen]⟩
        rw [List.mapM_cons, hx]
        simp only [bindOk]
        rw [hrs]
        rfl

/-- **C3**: cursor extraction over a present rel link: no
`debut_`-prefixed query parameter → cursor 0; exactly one such
parameter, whose value is the integer `n` → cursor `n`; two or more
such parameters → an error is raised (never a guessed cursor). -/
theorem C3_get_rel_start (p : PagedData α) (r : RelType) (url : Url)
    (hurl : p.rel r = some url) :
    ((parse_url_qsl url).filter (fun kv => "debut_".data.isPrefixOf kv.1.data) = [] →
      p.get_rel_start r = .ok (some 0)) ∧
    (∀ k v n,
      (parse_url_qsl url).filter (fun kv => "debut_".data.isPrefixOf kv.1.data) = [(k, v)] →
      pyInt v = .ok n → p.get_rel_start r = .ok (some n)) ∧
    (2 ≤ ((parse_url_qsl url).filter (fun kv => "debut_".data.isPrefixOf kv.1.data)).length →
      ∃ e, p.get_rel_start r = .error e) := by
  unfold PagedData.get_rel_start
  simp only [hurl]
  refine ⟨?_, ?_, ?_⟩
  · intro hf
    rw [hf]
    rfl
  · intro k v n hf hn
    rw [hf, List.mapM_cons, hn]
    simp only [bindOk]
    rfl
  · intro h2
    rcases mapM_except_length (fun kv => pyInt kv.2)
        ((parse_url_qsl url).filter (fun kv => "debut_".data.isPrefixOf kv.1.data)) with
      ⟨e, he⟩ | ⟨rs, hrs, hlen⟩
    · exact ⟨e, by rw [he]; rfl⟩
    · rw [hrs]
      simp only [bindOk]
      match rs, hlen with
      | r1 :: r2 :: rt, _ => exact ⟨_, rfl⟩
      | [], hlen =>
        simp only [List.length_nil] at hlen
        omega
      | [r1], hlen =>
        simp only [List.length_cons, List.length_nil] at hlen
        omega

/-- Witness for `C3_get_rel_start`, discharging each of its three cases
on a concrete envelope: a link with one `debut_` parameter of value 20,
a link with none, and a link with two. -/
theorem C3_get_rel_start_witness :
    PagedData.get_rel_start (α := List AuthorShort)
        ⟨[], { next := some "https://api.www.root-me.org/challenges?debut_challenges=20" }⟩
        .next = .ok (some 20) ∧
    PagedData.get_rel_start (α := List AuthorShort)
        ⟨[], { next := some "https://api.www.root-me.org/challenges" }⟩ .next =
      .ok (some 0) ∧
    ∃ e, PagedData.get_rel_start (α := List AuthorShort)
        ⟨[], { next := some "https://api.www.root-me.org/c?debut_a=1&debut_b=2" }⟩
        .next = .error e :=
  ⟨(C3_get_rel_start
      ⟨[], { next := some "https://api.www.root-me.org/challenges?debut_challenges=20" }⟩
      .next "https://api.www.root-me.org/challenges?debut_challenges=20" (by decide)).2.1
      "debut_challenges" "20" 20 (by decide) (by decide),
   (C3_get_rel_start
      ⟨[], { next := some "https://api.www.root-me.org/challenges" }⟩
      .next "https://api.www.root-me.org/challenges" (by decide)).1 (by decide),
   (C3_get_rel_start
      ⟨[], { next := some "https://api.www.root-me.org/c?debut_a=1&debut_b=2" }⟩
      .next "https://api.www.root-me.org/c?debut_a=1&debut_b=2" (by decide)).2.2 (by decide)⟩

/-- **C10**: cursor extraction distinguishes a missing link from a
first-page link: with no entry for the direction, `get_rel_start`
returns `None` and does not raise; with a link present but carrying no
`debut_`-prefixed parameter, it returns cursor 0. -/
theorem C10_missing_vs_first (p : PagedData α) (r : RelType) :
    (p.rel r = none → p.get_rel_start r = .ok none) ∧
    (∀ url, p.rel r = some url →
      (parse_url_qsl url).filter (fun kv => "debut_".data.isPrefixOf kv.1.data) = [] →
      p.get_rel_start r = .ok (some 0)) := by
  constructor
  · intro h
    unfold PagedData.get_rel_start
    simp only [h]
  · intro url hurl hf
    unfold PagedData.get_rel_start
    simp only [hurl]
    rw [hf]
    rfl

/-- Witness for `C10_missing_vs_first`, discharging both cases: an
envelope with no links at all returns `None`; one whose next link has
no offset parameter returns cursor 0. -/
theorem C10_missing_vs_first_witness :
    PagedData.get_rel_start (α := List AuthorShort) ⟨[], {}⟩ .next = .ok none ∧
    PagedData.get_rel_start (α := List AuthorShort)
        ⟨[], { next := some "https://api.www.root-me.org/challenges" }⟩ .next =
      .ok (some 0) :=
  ⟨(C10_missing_vs_first (α := List AuthorShort) ⟨[], {}⟩ .next).1 (by decide),
   (C10_missing_vs_first (α := List AuthorShort)
      ⟨[], { next := some "https://api.www.root-me.org/challenges" }⟩ .next).2
      "https://api.www.root-me.org/challenges" (by decide) (by decide)⟩

/-- **C4**: resolving a rel link whose `scheme://authority` does not
exactly equal the API's own base raises a protocol error — no fetch
plan is produced, whatever the link's path and query. -/
theorem C4_foreign_authority (p : PagedData α) (r : RelType) (url : Url)
    (hurl : p.rel r = some url)
    (hne : (split_url url).scheme ++ "://" ++ (split_url url).netloc ≠
      "https://api.www.root-me.org") :
    get_rel_page p r = .error "URL is not part of the Root-Me API" := by
  unfold get_rel_page
  simp only [hurl]
  rw [show pyRstrip API_URL '/' = "https://api.www.root-me.org" from by decide]
  rw [if_pos hne]

/-- Witness for `C4_foreign_authority` at a link pointing outside the
API. -/
theorem C4_foreign_authority_witness :
    PagedData.rel (α := List AuthorShort)
        ⟨[], { next := some "https://evil.example/challenges?x=1" }⟩ .next =
      some "https://evil.example/challenges?x=1" ∧
    get_rel_page (α := List AuthorShort)
        ⟨[], { next := some "https://evil.example/challenges?x=1" }⟩ .next =
      .error "URL is not part of the Root-Me API" :=
  ⟨by decide,
   C4_foreign_authority ⟨[], { next := some "https://evil.example/challenges?x=1" }⟩
     .next "https://evil.example/challenges?x=1" (by decide) (by decide)⟩

/-- **C8**: over a finite chain of pages in which page `k`'s next-step
resolves to page `k+1` and the last page's next-step resolves to
nothing, the forward page-level traversal started at the chain's first
page (with fuel at least the chain length) yields exactly the chain's
pages, in chain order, with no error — it terminates after exactly the
number of pages. -/
theorem C8_traversal (step : α → Except ε (Option α)) (chain : List α) (h0 : chain ≠ [])
    (hstep : ∀ i (h : i + 1 < chain.length),
      step (chain.get ⟨i, by omega⟩) = .ok (some (chain.get ⟨i + 1, h⟩)))
    (hlast : step (chain.getLast h0) = .ok none)
    (fuel : Nat) (hfuel : chain.length ≤ fuel + 1) :
    iter_list_pages step fuel (chain.head h0) = (chain, none) := by
  induction chain generalizing fuel with
  | nil => exact absurd rfl h0
  | cons p rest ih =>
    cases rest with
    | nil =>
      cases fuel with
      | zero => rfl
      | succ n =>
        have hl : step p = .ok none := hlast
        unfold iter_list_pages
        rw [show (p :: []).head h0 = p from rfl, hl]
    | cons q rest2 =>
      cases fuel with
      | zero =>
        simp only [List.length_cons] at hfuel
        omega
      | succ n =>
        have h1 : step p = .ok (some q) := by
          have := hstep 0 (by simp)
          simpa using this
        have hrec : iter_list_pages step n ((q :: rest2).head (by simp)) =
            (q :: rest2, none) := by
          refine ih (by simp) ?_ ?_ n ?_
          · intro i h
            have := hstep (i + 1) (by simp only [List.length_cons] at h ⊢; omega)
            simpa using this
          · have hgl : (p :: q :: rest2).getLast h0 = (q :: rest2).getLast (by simp) :=
              List.getLast_cons (by simp)
            rw [← hgl]
            exact hlast
          · simp only [List.length_cons] at hfuel ⊢
            omega
        unfold iter_list_pages
        rw [show (p :: q :: rest2).head h0 = p from rfl, h1]
        simp only [List.head_cons] at hrec
        simp only [hrec]

/-- Witness for `C8_traversal`: a three-page chain `[0, 1, 2]` driven by
a concrete step function, with fuel 5. -/
theorem C8_traversal_witness :
    iter_list_pages
      (fun n => if n < 2 then (.ok (some (n + 1)) : Except String (Option Nat)) else .ok none)
      5 ([0, 1, 2].head (by decide)) = ([0, 1, 2], none) :=
  C8_traversal
    (fun n => if n < 2 then (.ok (some (n + 1)) : Except String (Option Nat)) else .ok none)
    [0, 1, 2] (by decide)
    (by
      intro i h
      simp only [List.length_cons, List.length_nil] at h
      match i with
      | 0 => rfl
      | 1 => rfl
      | n + 2 => omega)
    (by decide) 5 (by decide)

end RootMe
